import Mathlib

/-!
Verification of the peloton tile-group storage core and plan transformer.

The MVCC slot state machine and tile-group operations (`TileGroupHeader`,
`TileGroup.InsertTuple`, `DeleteTuple`, `Commit*`, `Abort*`,
`LocateTileAndColumn`, `GetValue`) are declared in
`src/backend/storage/tile_group.h` but their bodies are not part of the
source fragment; they are modelled here from the specification
(spec.md §3, §4.4, §4.5, §4.6).  The plan-transformer definitions are
embeddings of `src/backend/bridge/plan_transformer.cpp`.
-/

namespace Peloton

/-- Values stored in tile cells (the source's `Value` is a dynamically
typed scalar; its identity is all that matters for the layout claims). -/
abbrev Value := Nat

/-- Modelled from the spec: transaction-id word of a slot header.
`invalid` is `INVALID_TXN_ID` (free slot), `initial` is `INITIAL_TXN_ID`
(committed), `txn T` is an in-flight transaction owner. -/
inductive TxnId where
  | invalid
  | initial
  | txn (t : Nat)
deriving DecidableEq, Repr

/-- Modelled from the spec: commit-id word. `invalid` is `INVALID_CID`
("not yet committed"), `max` is `MAX_CID` ("not yet ended"), `cid c` is a
concrete commit timestamp. -/
inductive Cid where
  | invalid
  | max
  | cid (c : Nat)
deriving DecidableEq, Repr

/-- Modelled from the spec: `begin_cid ≤ c_r` for a reader snapshot
`c_r`.  An `INVALID_CID` bound ("not yet committed") satisfies no
visibility comparison; `MAX_CID` as a lower bound is never reached. -/
def cidLe : Cid → Nat → Bool
  | Cid.invalid, _ => false
  | Cid.max, _ => false
  | Cid.cid b, c => decide (b ≤ c)

/-- Modelled from the spec: `c_r < end_cid` for a reader snapshot `c_r`.
`MAX_CID` means "not yet ended", so every snapshot is below it; an
`INVALID_CID` bound satisfies no visibility comparison. -/
def cidGt : Cid → Nat → Bool
  | Cid.invalid, _ => false
  | Cid.max, _ => true
  | Cid.cid d, c => decide (c < d)

/-- Modelled from the spec: one per-slot MVCC record of the tile-group
header, the triple `(txn_id, begin_cid, end_cid)`. -/
structure SlotHeader where
  txn_id : TxnId
  begin_cid : Cid
  end_cid : Cid
deriving DecidableEq, Repr

/-- State `EMPTY`: `(INVALID_TXN, INVALID_CID, INVALID_CID)`. -/
def emptySlot : SlotHeader := ⟨TxnId.invalid, Cid.invalid, Cid.invalid⟩

/-- State `INSERTING(T)`: `(T, INVALID_CID, INVALID_CID)`. -/
def insertingSlot (T : Nat) : SlotHeader := ⟨TxnId.txn T, Cid.invalid, Cid.invalid⟩

/-- State `LIVE`: `(INITIAL_TXN, c, MAX_CID)`. -/
def liveSlot (b : Nat) : SlotHeader := ⟨TxnId.initial, Cid.cid b, Cid.max⟩

/-- State `DELETING(T)`: `(T, c, INVALID_CID)`. -/
def deletingSlot (T b : Nat) : SlotHeader := ⟨TxnId.txn T, Cid.cid b, Cid.invalid⟩

/-- State `DEAD`: `(INITIAL_TXN, c, d)`. -/
def deadSlot (b d : Nat) : SlotHeader := ⟨TxnId.initial, Cid.cid b, Cid.cid d⟩

/-- Modelled from the spec: the visibility predicate of §4.4,
`visible(slot, c_r) = (txn_id == INITIAL_TXN) ∧ (begin_cid ≤ c_r) ∧ (c_r < end_cid)`. -/
def SlotHeader.visible (sl : SlotHeader) (c_r : Nat) : Bool :=
  decide (sl.txn_id = TxnId.initial) && cidLe sl.begin_cid c_r && cidGt sl.end_cid c_r

/-- Modelled from the spec: whether the slot is in state `DELETING(T)`
with `T = self` (the reading transaction's own pending delete). -/
def SlotHeader.isDeletingBy (sl : SlotHeader) (self : Nat) : Bool :=
  match sl with
  | ⟨TxnId.txn T, Cid.cid _, Cid.invalid⟩ => decide (T = self)
  | _ => false

/-- Modelled from the spec: the reader-side visibility check.  A slot is
visible to a reader with transaction id `self` and snapshot `c_r` iff the
plain visibility predicate holds, or the slot is the reader's own pending
delete (`DELETING(self)` — "transaction reads its own writes"). -/
def SlotHeader.visibleTo (sl : SlotHeader) (self : Nat) (c_r : Nat) : Bool :=
  sl.visible c_r || sl.isDeletingBy self

/-- Modelled from the spec: the tile-group header, a fixed-size array of
per-slot MVCC records plus the atomic next-slot counter. -/
structure TileGroupHeader where
  num_tuple_slots : Nat
  next_tuple_slot : Nat
  slots : List SlotHeader
deriving Repr

/-- Read the per-slot record at `s` (out-of-range reads see a free slot). -/
def TileGroupHeader.getSlot (h : TileGroupHeader) (s : Nat) : SlotHeader :=
  h.slots.getD s emptySlot

/-- Store the per-slot record at `s`. -/
def TileGroupHeader.setSlot (h : TileGroupHeader) (s : Nat) (sl : SlotHeader) : TileGroupHeader :=
  { h with slots := h.slots.set s sl }

/-- Modelled from the spec: a tile's dense payload for its column slice.
The cell map is total over `(slot, intra_column)`; bounds discipline is
the caller's contract (§4.3). -/
structure Tile where
  column_count : Nat
  data : Nat → Nat → Value
deriving Inhabited

/-- Read a cell: `get_value(slot, intra_column)`. -/
def Tile.getTileValue (t : Tile) (slot intra : Nat) : Value :=
  t.data slot intra

/-- Write a cell: `set_value(slot, intra_column, value)`. -/
def Tile.setTileValue (t : Tile) (slot intra : Nat) (v : Value) : Tile :=
  { t with data := fun s i => if s = slot ∧ i = intra then v else t.data s i }

/-- Modelled from the spec: the column-to-(tile, intra-column) map fixed
by the tile-schema partition, here represented by the per-tile column
counts.  Column `c` lands in the first tile whose cumulative width
exceeds it; the intra-tile index is the remainder. -/
def locateColumn : List Nat → Nat → Nat × Nat
  | [], c => (0, c)
  | n :: rest, c =>
    if c < n then (0, c)
    else
      let p := locateColumn rest (c - n)
      (p.1 + 1, p.2)

/-- Modelled from the spec: a tile group binds one header to a vector of
tiles parallel to the tile-schema partition (`tile_schemas` holds each
tile's column count). -/
structure TileGroup where
  tile_schemas : List Nat
  tiles : List Tile
  header : TileGroupHeader

/-- Source operation `LocateTileAndColumn(column_id) → (tile_offset, intra_column_id)`. -/
def TileGroup.LocateTileAndColumn (tg : TileGroup) (column_id : Nat) : Nat × Nat :=
  locateColumn tg.tile_schemas column_id

/-- Write one logical column of slot `s`: locate the owning tile and call
its `set_value`. -/
def TileGroup.SetValue (tg : TileGroup) (s k : Nat) (v : Value) : TileGroup :=
  let p := locateColumn tg.tile_schemas k
  { tg with tiles := tg.tiles.set p.1 ((tg.tiles.getD p.1 default).setTileValue s p.2 v) }

/-- Source operation `GetValue(slot, column_id)`: composition of locate and `tile.get_value`. -/
def TileGroup.GetValue (tg : TileGroup) (s k : Nat) : Value :=
  let p := locateColumn tg.tile_schemas k
  (tg.tiles.getD p.1 default).getTileValue s p.2

/-- Write the columns of a tuple into slot `s`, one `SetValue` per column
starting at logical column `k`. -/
def TileGroup.writeCols : TileGroup → Nat → Nat → List Value → TileGroup
  | tg, _, _, [] => tg
  | tg, s, k, v :: vs => TileGroup.writeCols (tg.SetValue s k v) s (k + 1) vs

/-- Modelled from the spec (§4.4 Reserve, §4.5): `InsertTuple(T, tuple)`.
Fetch-add on the next-slot counter yields `s`; if `s ≥ slot_count` the
group is full and the `FULL` sentinel (`none`) is returned; otherwise the
slot moves from `EMPTY` to `INSERTING(T)` and each column of the tuple is
written to its owning tile. -/
def TileGroup.InsertTuple (tg : TileGroup) (T : Nat) (tuple : List Value) :
    Option Nat × TileGroup :=
  let s := tg.header.next_tuple_slot
  let hdr := { tg.header with next_tuple_slot := s + 1 }
  if s < tg.header.num_tuple_slots then
    let tg2 := { tg with header := hdr.setSlot s (insertingSlot T) }
    (some s, tg2.writeCols s 0 tuple)
  else
    (none, { tg with header := hdr })

/-- Modelled from the spec (§4.4 MarkDelete, §4.5): `DeleteTuple(T, slot)`
CASes `txn_id` from `INITIAL_TXN` to `T`; on success the slot enters
`DELETING(T)` (per the state table, `end_cid` is cleared to `INVALID_CID`
until the delete commits); contention leaves the slot unchanged and
returns false. -/
def TileGroup.DeleteTuple (tg : TileGroup) (T : Nat) (s : Nat) : Bool × TileGroup :=
  let sl := tg.header.getSlot s
  if sl.txn_id = TxnId.initial then
    (true, { tg with header := tg.header.setSlot s { sl with txn_id := TxnId.txn T, end_cid := Cid.invalid } })
  else
    (false, tg)

/-- Modelled from the spec (§4.4 CommitInsert): store `begin_cid = c`,
publish `txn_id = INITIAL_TXN`; the post-state is `LIVE` per the state
table, so `end_cid` becomes `MAX_CID`. -/
def TileGroup.CommitInsertedTuple (tg : TileGroup) (s : Nat) (c : Nat) : TileGroup :=
  let sl := tg.header.getSlot s
  let sl2 := { sl with begin_cid := Cid.cid c, end_cid := Cid.max, txn_id := TxnId.initial }
  { tg with header := tg.header.setSlot s sl2 }

/-- Modelled from the spec (§4.4 CommitDelete): store `end_cid = c`, then
publish `txn_id = INITIAL_TXN`; the post-state is `DEAD`. -/
def TileGroup.CommitDeletedTuple (tg : TileGroup) (s : Nat) (T : Nat) (c : Nat) : TileGroup :=
  let sl := tg.header.getSlot s
  let sl2 := { sl with end_cid := Cid.cid c, txn_id := TxnId.initial }
  { tg with header := tg.header.setSlot s sl2 }

/-- Modelled from the spec (§4.4 AbortInsert): the slot returns to
`EMPTY`; the allocator's counter is untouched (no recycling). -/
def TileGroup.AbortInsertedTuple (tg : TileGroup) (s : Nat) : TileGroup :=
  { tg with header := tg.header.setSlot s emptySlot }

/-- Modelled from the spec (§4.4 AbortDelete): restore `txn_id` to
`INITIAL_TXN` and `end_cid` to `MAX_CID`. -/
def TileGroup.AbortDeletedTuple (tg : TileGroup) (s : Nat) : TileGroup :=
  let sl := tg.header.getSlot s
  let sl2 := { sl with txn_id := TxnId.initial, end_cid := Cid.max }
  { tg with header := tg.header.setSlot s sl2 }

/-- Source operation `GetNextTupleSlot`: the allocator's counter. -/
def TileGroup.GetNextTupleSlot (tg : TileGroup) : Nat :=
  tg.header.next_tuple_slot

/-- Reader-side visibility of slot `s` to transaction `self` at snapshot
`c_r`, read through the header. -/
def TileGroup.IsVisible (tg : TileGroup) (s : Nat) (self : Nat) (c_r : Nat) : Bool :=
  (tg.header.getSlot s).visibleTo self c_r

/-- A freshly constructed tile group: empty header records, counter 0,
one all-zero tile per tile schema. -/
def freshTileGroup (sizes : List Nat) (cap : Nat) : TileGroup :=
  { tile_schemas := sizes,
    tiles := sizes.map (fun n => { column_count := n, data := fun _ _ => 0 }),
    header := { num_tuple_slots := cap, next_tuple_slot := 0,
                slots := List.replicate cap emptySlot } }

/-- Run a sequence of `InsertTuple` calls from a single thread, returning
the list of outcomes and the final group. -/
def insertAll : TileGroup → Nat → List (List Value) → List (Option Nat) × TileGroup
  | tg, _, [] => ([], tg)
  | tg, T, t :: ts =>
    let r := tg.InsertTuple T t
    let rest := insertAll r.2 T ts
    (r.1 :: rest.1, rest.2)

/-- Modelled from the spec (§4.6): a table is an ordered list of tile
groups; new groups are built from the table's tile partition and capacity. -/
structure DataTable where
  tile_sizes : List Nat
  group_capacity : Nat
  tile_groups : List TileGroup

/-- Modelled from the spec (§4.6): `InsertTuple` tries the tail group; on
`FULL` it appends a freshly constructed tile group and retries there. -/
def DataTable.InsertTuple (tbl : DataTable) (T : Nat) (tuple : List Value) :
    Option Nat × DataTable :=
  match tbl.tile_groups.getLast? with
  | some tg =>
    let r := tg.InsertTuple T tuple
    match r.1 with
    | some s => (some s, { tbl with tile_groups := tbl.tile_groups.dropLast ++ [r.2] })
    | none =>
      let fresh := freshTileGroup tbl.tile_sizes tbl.group_capacity
      let r2 := fresh.InsertTuple T tuple
      (r2.1, { tbl with tile_groups := tbl.tile_groups.dropLast ++ [r.2, r2.2] })
  | none =>
    let fresh := freshTileGroup tbl.tile_sizes tbl.group_capacity
    let r2 := fresh.InsertTuple T tuple
    (r2.1, { tbl with tile_groups := tbl.tile_groups ++ [r2.2] })

/-- Concrete scenario: capacity-2 single-column group after transaction 3
reserved slot 0 and wrote the tuple `[5]` (slot 0 is `INSERTING(3)`). -/
def tgInsExample : TileGroup := ((freshTileGroup [1] 2).InsertTuple 3 [5]).2

/-- Concrete scenario: the insert of `tgInsExample` committed at cid 10
(slot 0 is `LIVE(10)`). -/
def tgLiveExample : TileGroup := tgInsExample.CommitInsertedTuple 0 10

/-- Concrete scenario: capacity-3 single-column group fully populated by
three inserts (counter = 3). -/
def tgFullExample : TileGroup := (insertAll (freshTileGroup [1] 3) 9 [[1], [2], [3]]).2

/-- Concrete scenario: a capacity-1 single-column group filled by one
insert (counter = 1, full). -/
def tgFull1Example : TileGroup := (insertAll (freshTileGroup [1] 1) 9 [[1]]).2

/-- Concrete scenario: a table whose tail tile group (capacity 1) is full. -/
def tblFullExample : DataTable :=
  { tile_sizes := [1], group_capacity := 1, tile_groups := [tgFull1Example] }

/-! Plan transformer (embedding of `src/backend/bridge/plan_transformer.cpp`). -/

/-- Postgres command tags relevant to `TransformModifyTable`'s switch. -/
inductive CmdType where
  | insert
  | update
  | deleteCmd
  | select
  | other
deriving DecidableEq, Repr

/-- The catalog manager surface the transformer uses: `GetLocation`
resolves `(database_oid, table_oid)` to a table handle, and a table
handle's schema has a column count (`GetSchema()->GetColumnCount()`). -/
structure CatalogManager where
  getLocation : Nat → Nat → Nat
  schemaColumnCount : Nat → Nat

/-- The fields of `ModifyTableState` the transformer reads, plus the
tuples the subplan would produce if it were executed (the commented-out
`ExecProcNode` path). -/
structure ModifyTableState where
  operation : CmdType
  mt_nplans : Nat
  result_table_oid : Nat
  subplan_output : List (List Value)

/-- The fields of `SeqScanState` the transformer reads: the scanned
relation's oid, the qualifier `ps.qual` and the projection
`ps.ps_ProjInfo` (both carried but never consulted). -/
structure SeqScanState where
  table_oid : Nat
  qual : Option Nat
  ps_ProjInfo : Option Nat

/-- Abstract plan nodes emitted by the transformer: `InsertNode(table,
tuples)` and `SeqScanNode(table, predicate, column_ids)` (predicates are
expression handles). -/
inductive AbstractPlanNode where
  | insertNode (target_table : Nat) (tuples : List (List Value))
  | seqScanNode (table : Nat) (predicate : Option Nat) (column_ids : List Nat)
deriving DecidableEq, Repr

/-- Embedding of `PlanTransformer::TransformInsert`: resolves the result relation via
the catalog and builds an `InsertNode` with the (empty) tuple vector; the
subplan-execution block is commented out in the source, so no tuple is
extracted. -/
def TransformInsert (mgr : CatalogManager) (db_oid : Nat) (ms : ModifyTableState) :
    AbstractPlanNode :=
  let target_table := mgr.getLocation db_oid ms.result_table_oid
  let tuples : List (List Value) := []
  AbstractPlanNode.insertNode target_table tuples

/-- Embedding of `PlanTransformer::TransformModifyTable`: dispatches on the plan's
operation; only `CMD_INSERT` is handled, everything else yields null. -/
def TransformModifyTable (mgr : CatalogManager) (db_oid : Nat) (ms : ModifyTableState) :
    Option AbstractPlanNode :=
  match ms.operation with
  | CmdType.insert => some (TransformInsert mgr db_oid ms)
  | _ => none

/-- Embedding of `PlanTransformer::TransformSeqScan`: resolves the scanned table via
the catalog, uses a null predicate (the `ps.qual` transform is a TODO),
and selects all columns `0, 1, …, column_count-1` of the target table's
schema via `std::iota` (the `ps_ProjInfo` projection is a TODO). -/
def TransformSeqScan (mgr : CatalogManager) (db_oid : Nat) (ss : SeqScanState) :
    AbstractPlanNode :=
  let target_table := mgr.getLocation db_oid ss.table_oid
  let predicate : Option Nat := none
  let column_ids := List.range (mgr.schemaColumnCount target_table)
  AbstractPlanNode.seqScanNode target_table predicate column_ids

/-- Concrete catalog: table handles are `db_oid + table_oid`, and a
handle's schema has as many columns as the handle value. -/
def mgrExample : CatalogManager :=
  { getLocation := fun d t => d + t, schemaColumnCount := fun h => h }

/-- Concrete insert plan state over table oid 5 whose subplan would
produce one tuple. -/
def msInsExample : ModifyTableState :=
  { operation := CmdType.insert, mt_nplans := 1, result_table_oid := 5,
    subplan_output := [[9, 9]] }

/-- Concrete scan plan state over table oid 3 carrying a qualifier and a
projection. -/
def ssExample : SeqScanState :=
  { table_oid := 3, qual := some 1, ps_ProjInfo := some 2 }

/-! Helper lemmas. -/

/-- Reading back a stored slot record. -/
theorem getSlot_setSlot_self (h : TileGroupHeader) (s : Nat) (sl : SlotHeader)
    (hs : s < h.slots.length) : (h.setSlot s sl).getSlot s = sl := by
  simp [TileGroupHeader.setSlot, TileGroupHeader.getSlot,
    List.getD_eq_getElem?_getD, List.getElem?_set_self, hs]

/-- Storing a slot record leaves the counter alone. -/
theorem setSlot_next (h : TileGroupHeader) (s : Nat) (sl : SlotHeader) :
    (h.setSlot s sl).next_tuple_slot = h.next_tuple_slot := rfl

/-- Operation `SetValue` touches only the tiles, not the header or the layout. -/
theorem setValue_header (tg : TileGroup) (s k : Nat) (v : Value) :
    (tg.SetValue s k v).header = tg.header ∧
    (tg.SetValue s k v).tile_schemas = tg.tile_schemas ∧
    (tg.SetValue s k v).tiles.length = tg.tiles.length := by
  refine ⟨rfl, rfl, ?_⟩
  simp [TileGroup.SetValue]

/-- Operation `writeCols` touches only the tiles, not the header or the layout. -/
theorem writeCols_header (vs : List Value) : ∀ (tg : TileGroup) (s k : Nat),
    (tg.writeCols s k vs).header = tg.header ∧
    (tg.writeCols s k vs).tile_schemas = tg.tile_schemas ∧
    (tg.writeCols s k vs).tiles.length = tg.tiles.length := by
  induction vs with
  | nil => intro tg s k; exact ⟨rfl, rfl, rfl⟩
  | cons v vs ih =>
    intro tg s k
    have h1 := setValue_header tg s k v
    have h2 := ih (tg.SetValue s k v) s (k + 1)
    exact ⟨h2.1.trans h1.1, h2.2.1.trans h1.2.1,
      by simp [TileGroup.writeCols]; omega⟩

/-- The column-to-(tile, intra) map is injective: distinct logical
columns never share a physical cell. -/
theorem locateColumn_inj : ∀ (sizes : List Nat) (c1 c2 : Nat),
    locateColumn sizes c1 = locateColumn sizes c2 → c1 = c2 := by
  intro sizes
  induction sizes with
  | nil => intro c1 c2 h; simpa [locateColumn] using h
  | cons n rest ih =>
    intro c1 c2 h
    simp only [locateColumn] at h
    by_cases h1 : c1 < n <;> by_cases h2 : c2 < n <;>
      simp [h1, h2, Prod.ext_iff] at h
    · exact h
    · have := ih (c1 - n) (c2 - n) (Prod.ext h.1 h.2)
      omega

/-- An in-range column lands in an in-range tile. -/
theorem locateColumn_fst_lt : ∀ (sizes : List Nat) (c : Nat),
    c < sizes.sum → (locateColumn sizes c).1 < sizes.length := by
  intro sizes
  induction sizes with
  | nil => intro c hc; simp at hc
  | cons n rest ih =>
    intro c hc
    simp only [locateColumn]
    by_cases h1 : c < n
    · simp [h1]
    · have : c - n < rest.sum := by simp [List.sum_cons] at hc; omega
      have := ih (c - n) this
      simp [h1]
      omega

/-- Reading back the cell a `SetValue` just wrote. -/
theorem getValue_setValue_self (tg : TileGroup) (s k : Nat) (v : Value)
    (ht : (locateColumn tg.tile_schemas k).1 < tg.tiles.length) :
    (tg.SetValue s k v).GetValue s k = v := by
  simp [TileGroup.SetValue, TileGroup.GetValue, Tile.setTileValue, Tile.getTileValue,
    List.getD_eq_getElem?_getD, List.getElem?_set_self, ht]

/-- Writing one column never disturbs a read of a different column. -/
theorem getValue_setValue_ne (tg : TileGroup) (s k : Nat) (v : Value)
    (s' k' : Nat) (hk : k' ≠ k) :
    (tg.SetValue s k v).GetValue s' k' = tg.GetValue s' k' := by
  have hloc : locateColumn tg.tile_schemas k' ≠ locateColumn tg.tile_schemas k :=
    fun h => hk (locateColumn_inj tg.tile_schemas k' k h)
  simp only [TileGroup.SetValue, TileGroup.GetValue]
  by_cases ht : (locateColumn tg.tile_schemas k').1 = (locateColumn tg.tile_schemas k).1
  · have hi : (locateColumn tg.tile_schemas k').2 ≠ (locateColumn tg.tile_schemas k).2 := by
      intro hi
      exact hloc (Prod.ext ht hi)
    by_cases hlen : (locateColumn tg.tile_schemas k).1 < tg.tiles.length
    · simp [List.getD_eq_getElem?_getD, ht, List.getElem?_set_self, hlen,
        Tile.getTileValue, Tile.setTileValue, hi]
    · simp [List.set_eq_of_length_le (by omega : tg.tiles.length ≤ (locateColumn tg.tile_schemas k).1)]
  · simp [List.getD_eq_getElem?_getD, List.getElem?_set_ne (fun h => ht h.symm)]

/-- Writes to columns at or beyond `k` never disturb a column below `k`. -/
theorem writeCols_getValue_lt : ∀ (vs : List Value) (tg : TileGroup) (s k k' : Nat),
    k' < k → (tg.writeCols s k vs).GetValue s k' = tg.GetValue s k' := by
  intro vs
  induction vs with
  | nil => intro tg s k k' _; rfl
  | cons v vs ih =>
    intro tg s k k' hk
    have h1 := ih (tg.SetValue s k v) s (k + 1) k' (by omega)
    have h2 := getValue_setValue_ne tg s k v s k' (by omega)
    simpa [TileGroup.writeCols, h2] using h1

/-- After `writeCols` writes `vs` starting at column `k`, column `k + j`
holds `vs[j]` (provided that column lands in a real tile). -/
theorem writeCols_getValue : ∀ (vs : List Value) (tg : TileGroup) (s k j : Nat),
    j < vs.length →
    (locateColumn tg.tile_schemas (k + j)).1 < tg.tiles.length →
    (tg.writeCols s k vs).GetValue s (k + j) = vs.getD j 0 := by
  intro vs
  induction vs with
  | nil => intro tg s k j hj; simp at hj
  | cons v vs ih =>
    intro tg s k j hj hloc
    cases j with
    | zero =>
      have h1 := writeCols_getValue_lt vs (tg.SetValue s k v) s (k + 1) k (by omega)
      have h2 := getValue_setValue_self tg s k v (by simpa using hloc)
      simpa [TileGroup.writeCols, h2] using h1
    | succ j' =>
      have heq := setValue_header tg s k v
      have h1 := ih (tg.SetValue s k v) s (k + 1) j' (by simpa using Nat.lt_of_succ_lt_succ hj)
        (by rw [heq.2.1, heq.2.2]; have : k + 1 + j' = k + (j' + 1) := by omega
            rw [this]; exact hloc)
      simp only [TileGroup.writeCols]
      have : k + (j' + 1) = k + 1 + j' := by omega
      rw [this]
      simpa using h1

/-! Claim theorems. -/

/-- Characterization of reader-side slot visibility over all slot states. -/
theorem visibleTo_iff (sl : SlotHeader) (self c_r : Nat) :
    sl.visibleTo self c_r = true ↔
      ((sl.txn_id = TxnId.initial ∧ cidLe sl.begin_cid c_r = true ∧ cidGt sl.end_cid c_r = true)
       ∨ ∃ b, sl = deletingSlot self b) := by
  obtain ⟨tid, bc, ec⟩ := sl
  cases tid <;> cases bc <;> cases ec <;>
    simp [SlotHeader.visibleTo, SlotHeader.visible, SlotHeader.isDeletingBy,
      deletingSlot, cidLe, cidGt, SlotHeader.mk.injEq]

/-- C1: a slot is visible to a reader snapshot `c_r` iff
`txn_id == INITIAL_TXN ∧ begin_cid ≤ c_r ∧ c_r < end_cid`, except that a
slot in `DELETING(T)` is additionally visible to the reading transaction
itself when `T` equals its id; per state: `EMPTY` and `INSERTING(T)` are
never visible, `LIVE(c)` is visible iff `c ≤ c_r`, `DELETING(T, c)` is
visible exactly to its own transaction, and `DEAD(c, d)` is visible iff
`c ≤ c_r < d`. -/
theorem visibility_spec :
    (∀ (tg : TileGroup) (s self c_r : Nat),
       tg.IsVisible s self c_r = true ↔
         (((tg.header.getSlot s).txn_id = TxnId.initial ∧
           cidLe (tg.header.getSlot s).begin_cid c_r = true ∧
           cidGt (tg.header.getSlot s).end_cid c_r = true) ∨
          ∃ b, tg.header.getSlot s = deletingSlot self b))
    ∧ (∀ self c_r : Nat, SlotHeader.visibleTo emptySlot self c_r = false)
    ∧ (∀ T self c_r : Nat, SlotHeader.visibleTo (insertingSlot T) self c_r = false)
    ∧ (∀ b self c_r : Nat, SlotHeader.visibleTo (liveSlot b) self c_r = true ↔ b ≤ c_r)
    ∧ (∀ T b self c_r : Nat, SlotHeader.visibleTo (deletingSlot T b) self c_r = true ↔ T = self)
    ∧ (∀ b d self c_r : Nat,
         SlotHeader.visibleTo (deadSlot b d) self c_r = true ↔ b ≤ c_r ∧ c_r < d) := by
  refine ⟨fun tg s self c_r => visibleTo_iff (tg.header.getSlot s) self c_r,
    fun self c_r => rfl, fun T self c_r => rfl, ?_, ?_, ?_⟩
  · intro b self c_r
    simp [SlotHeader.visibleTo, SlotHeader.visible, SlotHeader.isDeletingBy, liveSlot, cidLe, cidGt]
  · intro T b self c_r
    simp [SlotHeader.visibleTo, SlotHeader.visible, SlotHeader.isDeletingBy,
      deletingSlot, cidLe, cidGt]
  · intro b d self c_r
    simp [SlotHeader.visibleTo, SlotHeader.visible, SlotHeader.isDeletingBy, deadSlot, cidLe, cidGt]

/-- C8: `LocateTileAndColumn` on the 5-column layout `[[c0,c1,c2],[c3,c4]]`
maps `c3 → (1, 0)` and `c4 → (1, 1)`; in general, the `i`-th column of the
tile preceded by the partition prefix `pre` is mapped to tile `pre.length`
at intra-tile index `i`. -/
theorem locateTileAndColumn_spec :
    ((freshTileGroup [3, 2] 4).LocateTileAndColumn 3 = (1, 0)
      ∧ (freshTileGroup [3, 2] 4).LocateTileAndColumn 4 = (1, 1))
    ∧ (∀ (pre post : List Nat) (n i : Nat), i < n →
        locateColumn (pre ++ n :: post) (pre.sum + i) = (pre.length, i)) := by
  constructor
  · exact ⟨rfl, rfl⟩
  · intro pre
    induction pre with
    | nil =>
      intro post n i hi
      simp [locateColumn, hi]
    | cons m pre ih =>
      intro post n i hi
      have hge : ¬ (m + pre.sum + i < m) := by omega
      have : m + pre.sum + i - m = pre.sum + i := by omega
      simp [locateColumn, List.sum_cons, hge, this, ih post n i hi]

/-- Concrete witness for the general mapping part of the claim. -/
theorem locateTileAndColumn_spec_witness :
    locateColumn ([3] ++ 2 :: []) ([3].sum + 1) = ([3].length, 1) :=
  locateTileAndColumn_spec.2 [3] [] 2 1 (by decide)

/-- C2: committing an insert on a slot in `INSERTING(T)` leaves the slot
in `LIVE`: `(INITIAL_TXN, c, MAX_CID)`; consequently the slot is visible
to every snapshot cid `≥ c`. -/
theorem commitInsertedTuple_spec (tg : TileGroup) (s T c : Nat)
    (hs : s < tg.header.slots.length)
    (hins : tg.header.getSlot s = insertingSlot T) :
    (tg.CommitInsertedTuple s c).header.getSlot s = liveSlot c
    ∧ ∀ (self c_r : Nat), c ≤ c_r → (tg.CommitInsertedTuple s c).IsVisible s self c_r = true := by
  have hslot : (tg.CommitInsertedTuple s c).header.getSlot s = liveSlot c := by
    simp [TileGroup.CommitInsertedTuple, getSlot_setSlot_self _ _ _ hs, liveSlot]
  refine ⟨hslot, ?_⟩
  intro self c_r hc
  simp [TileGroup.IsVisible, hslot, SlotHeader.visibleTo, SlotHeader.visible,
    SlotHeader.isDeletingBy, liveSlot, cidLe, cidGt, hc]

/-- Witness: committing the reserved slot of `tgInsExample` at cid 10
yields a `LIVE(10)` slot visible at snapshot 10 and later. -/
theorem commitInsertedTuple_spec_witness :
    (tgInsExample.CommitInsertedTuple 0 10).header.getSlot 0 = liveSlot 10
    ∧ ∀ (self c_r : Nat), 10 ≤ c_r →
        (tgInsExample.CommitInsertedTuple 0 10).IsVisible 0 self c_r = true :=
  commitInsertedTuple_spec tgInsExample 0 3 10 (by decide) (by decide)

/-- C3: `DeleteTuple(T, slot)` succeeds iff the slot's `txn_id` is
`INITIAL_TXN` (state `LIVE`); a failed attempt leaves the group
untouched, and of two transactions marking the same `LIVE` slot the first
succeeds and the second fails. -/
theorem deleteTuple_spec :
    (∀ (tg : TileGroup) (T s : Nat),
       ((tg.DeleteTuple T s).1 = true ↔ (tg.header.getSlot s).txn_id = TxnId.initial))
    ∧ (∀ (tg : TileGroup) (T s : Nat),
       (tg.header.getSlot s).txn_id ≠ TxnId.initial → tg.DeleteTuple T s = (false, tg))
    ∧ (∀ (tg : TileGroup) (T1 T2 s : Nat), s < tg.header.slots.length →
       (tg.header.getSlot s).txn_id = TxnId.initial →
       (tg.DeleteTuple T1 s).1 = true ∧ (((tg.DeleteTuple T1 s).2).DeleteTuple T2 s).1 = false) := by
  refine ⟨?_, ?_, ?_⟩
  · intro tg T s
    by_cases h : (tg.header.getSlot s).txn_id = TxnId.initial <;>
      simp [TileGroup.DeleteTuple, h]
  · intro tg T s h
    simp [TileGroup.DeleteTuple, h]
  · intro tg T1 T2 s hs h
    refine ⟨by simp [TileGroup.DeleteTuple, h], ?_⟩
    have hne : (((tg.DeleteTuple T1 s).2).header.getSlot s).txn_id ≠ TxnId.initial := by
      have hafter : ((tg.DeleteTuple T1 s).2).header.getSlot s
          = { tg.header.getSlot s with txn_id := TxnId.txn T1, end_cid := Cid.invalid } := by
        simp [TileGroup.DeleteTuple, h, getSlot_setSlot_self _ _ _ hs]
      rw [hafter]
      simp
    generalize (tg.DeleteTuple T1 s).2 = tg1 at hne ⊢
    simp [TileGroup.DeleteTuple, hne]

/-- Witness: on the `LIVE` slot 0 of `tgLiveExample`, transaction 4's
mark-delete succeeds and transaction 6's subsequent attempt fails. -/
theorem deleteTuple_spec_witness :
    (tgLiveExample.DeleteTuple 4 0).1 = true
    ∧ (((tgLiveExample.DeleteTuple 4 0).2).DeleteTuple 6 0).1 = false :=
  deleteTuple_spec.2.2 tgLiveExample 4 6 0 (by decide) (by decide)

/-- The allocator's fetch-add: `InsertTuple` bumps the counter by one,
leaves the capacity alone, and returns the old counter value iff it was
below capacity. -/
theorem insertTuple_next (tg : TileGroup) (T : Nat) (t : List Value) :
    ((tg.InsertTuple T t).2).header.next_tuple_slot = tg.header.next_tuple_slot + 1
    ∧ ((tg.InsertTuple T t).2).header.num_tuple_slots = tg.header.num_tuple_slots
    ∧ (tg.InsertTuple T t).1
        = (if tg.header.next_tuple_slot < tg.header.num_tuple_slots
           then some tg.header.next_tuple_slot else none) := by
  by_cases h : tg.header.next_tuple_slot < tg.header.num_tuple_slots
  · refine ⟨?_, ?_, ?_⟩
    · simp only [TileGroup.InsertTuple, if_pos h]
      rw [(writeCols_header t _ _ _).1]
      rfl
    · simp only [TileGroup.InsertTuple, if_pos h]
      rw [(writeCols_header t _ _ _).1]
      rfl
    · simp only [TileGroup.InsertTuple, if_pos h]
  · refine ⟨?_, ?_, ?_⟩ <;> simp only [TileGroup.InsertTuple, if_neg h]

/-- C4: the next-slot counter never decreases: `InsertTuple` only
advances it, and `DeleteTuple`, the aborts and the commits leave it
unchanged; in particular, aborting slot 1 of the fully populated
capacity-3 group keeps the counter at 3 and the next insert reports FULL. -/
theorem counter_monotone_spec :
    (∀ (tg : TileGroup) (T : Nat) (t : List Value),
       tg.GetNextTupleSlot ≤ ((tg.InsertTuple T t).2).GetNextTupleSlot)
    ∧ (∀ (tg : TileGroup) (T s : Nat),
       ((tg.DeleteTuple T s).2).GetNextTupleSlot = tg.GetNextTupleSlot)
    ∧ (∀ (tg : TileGroup) (s : Nat),
       (tg.AbortInsertedTuple s).GetNextTupleSlot = tg.GetNextTupleSlot)
    ∧ (∀ (tg : TileGroup) (s : Nat),
       (tg.AbortDeletedTuple s).GetNextTupleSlot = tg.GetNextTupleSlot)
    ∧ (∀ (tg : TileGroup) (s c : Nat),
       (tg.CommitInsertedTuple s c).GetNextTupleSlot = tg.GetNextTupleSlot)
    ∧ (∀ (tg : TileGroup) (s T c : Nat),
       (tg.CommitDeletedTuple s T c).GetNextTupleSlot = tg.GetNextTupleSlot)
    ∧ ((tgFullExample.AbortInsertedTuple 1).GetNextTupleSlot = tgFullExample.GetNextTupleSlot
       ∧ ((tgFullExample.AbortInsertedTuple 1).InsertTuple 9 [4]).1 = none) := by
  refine ⟨?_, ?_, ?_, ?_, ?_, ?_, by decide, by decide⟩
  · intro tg T t
    have h := (insertTuple_next tg T t).1
    simp only [TileGroup.GetNextTupleSlot, h]
    omega
  · intro tg T s
    by_cases h : (tg.header.getSlot s).txn_id = TxnId.initial <;>
      simp [TileGroup.DeleteTuple, h, TileGroup.GetNextTupleSlot, TileGroupHeader.setSlot]
  · intro tg s; rfl
  · intro tg s; rfl
  · intro tg s c; rfl
  · intro tg s T c; rfl

/-- C5: `InsertTuple` on a group whose counter has reached capacity
returns the `FULL` sentinel without touching any slot record, and on a
table whose tail group is full this appends one fresh tile group and the
retry there succeeds at slot 0. -/
theorem insertTuple_full_spec :
    (∀ (tg : TileGroup) (T : Nat) (t : List Value),
       tg.header.num_tuple_slots ≤ tg.header.next_tuple_slot →
       (tg.InsertTuple T t).1 = none
       ∧ ((tg.InsertTuple T t).2).header.slots = tg.header.slots)
    ∧ (∀ (tbl : DataTable) (T : Nat) (t : List Value) (tg : TileGroup),
       tbl.tile_groups.getLast? = some tg →
       tg.header.num_tuple_slots ≤ tg.header.next_tuple_slot →
       0 < tbl.group_capacity →
       ((tbl.InsertTuple T t).2).tile_groups.length = tbl.tile_groups.length + 1
       ∧ (tbl.InsertTuple T t).1 = some 0) := by
  have hfull : ∀ (tg : TileGroup) (T : Nat) (t : List Value),
      tg.header.num_tuple_slots ≤ tg.header.next_tuple_slot →
      (tg.InsertTuple T t).1 = none
      ∧ ((tg.InsertTuple T t).2).header.slots = tg.header.slots := by
    intro tg T t h
    have hn : ¬ tg.header.next_tuple_slot < tg.header.num_tuple_slots := by omega
    exact ⟨by simp only [TileGroup.InsertTuple, if_neg hn],
      by simp only [TileGroup.InsertTuple, if_neg hn]⟩
  refine ⟨hfull, ?_⟩
  intro tbl T t tg hlast h hcap
  have hne : tbl.tile_groups ≠ [] := by
    intro h0
    rw [h0] at hlast
    simp at hlast
  have hlen : 0 < tbl.tile_groups.length := List.length_pos.mpr hne
  have hnone := (hfull tg T t h).1
  have hfresh : ((freshTileGroup tbl.tile_sizes tbl.group_capacity).InsertTuple T t).1 = some 0 := by
    have := (insertTuple_next (freshTileGroup tbl.tile_sizes tbl.group_capacity) T t).2.2
    simpa [freshTileGroup, hcap] using this
  simp only [DataTable.InsertTuple, hlast, hnone]
  refine ⟨?_, hfresh⟩
  simp only [List.length_append, List.length_dropLast, List.length_cons, List.length_nil]
  omega

/-- Witness: inserting into `tblFullExample` (full capacity-1 tail)
appends a second group and lands the tuple at slot 0 of the new group. -/
theorem insertTuple_full_spec_witness :
    ((tblFullExample.InsertTuple 9 [2]).2).tile_groups.length
        = tblFullExample.tile_groups.length + 1
    ∧ (tblFullExample.InsertTuple 9 [2]).1 = some 0 :=
  insertTuple_full_spec.2 tblFullExample 9 [2] tgFull1Example rfl (by decide) (by decide)

/-- Single-thread run of `insertAll`: the outcome list is the interval of
counter values, each a success exactly while it is below capacity. -/
theorem insertAll_fst (T : Nat) : ∀ (ts : List (List Value)) (tg : TileGroup),
    (insertAll tg T ts).1
      = (List.range' tg.header.next_tuple_slot ts.length).map
          (fun s => if s < tg.header.num_tuple_slots then some s else none) := by
  intro ts
  induction ts with
  | nil => intro tg; rfl
  | cons t ts ih =>
    intro tg
    have hn := insertTuple_next tg T t
    simp only [insertAll, List.length_cons, List.range'_succ, List.map_cons]
    rw [ih (tg.InsertTuple T t).2, hn.1, hn.2.1, hn.2.2]

/-- C6: from a fresh tile group, a single-thread sequence of `InsertTuple`
calls returns the slot ids `0, 1, 2, …` in order — the k-th call succeeds
with slot `k-1` exactly while the counter is below capacity. -/
theorem insert_slot_order_spec (sizes : List Nat) (cap T : Nat) (ts : List (List Value)) :
    (insertAll (freshTileGroup sizes cap) T ts).1
      = (List.range ts.length).map (fun s => if s < cap then some s else none) := by
  rw [insertAll_fst T ts (freshTileGroup sizes cap), List.range_eq_range']
  rfl

/-- Specialization of `writeCols_getValue` to a write starting at the
first column. -/
theorem writeCols_getValue0 (vs : List Value) (tg : TileGroup) (s j : Nat)
    (hj : j < vs.length)
    (hloc : (locateColumn tg.tile_schemas j).1 < tg.tiles.length) :
    (tg.writeCols s 0 vs).GetValue s j = vs.getD j 0 := by
  have h := writeCols_getValue vs tg s 0 j hj (by simpa using hloc)
  simpa using h

/-- C7: round-trip — after `InsertTuple` places tuple `t` at slot `s`,
`GetValue(s, k)` returns `t[k]` for every column `k` of the schema. -/
theorem insert_roundtrip_spec (tg : TileGroup) (T : Nat) (tuple : List Value)
    (s : Nat) (tg' : TileGroup) (k : Nat)
    (hlen : tg.tiles.length = tg.tile_schemas.length)
    (htup : tuple.length = tg.tile_schemas.sum)
    (hk : k < tuple.length)
    (hins : tg.InsertTuple T tuple = (some s, tg')) :
    tg'.GetValue s k = tuple.getD k 0 := by
  by_cases h : tg.header.next_tuple_slot < tg.header.num_tuple_slots
  · simp only [TileGroup.InsertTuple, if_pos h, Prod.mk.injEq, Option.some.injEq] at hins
    obtain ⟨hs, htg⟩ := hins
    subst hs
    subst htg
    have hcond : (locateColumn tg.tile_schemas k).1 < tg.tiles.length := by
      rw [hlen]
      exact locateColumn_fst_lt tg.tile_schemas k (by omega)
    exact writeCols_getValue0 tuple _ tg.header.next_tuple_slot k hk hcond
  · simp [TileGroup.InsertTuple, h] at hins

/-- Witness: inserting `[10,20,30,40,50]` into a fresh `[[3],[2]]` group
and reading column 3 of the allocated slot returns 40. -/
theorem insert_roundtrip_spec_witness :
    ((freshTileGroup [3, 2] 2).InsertTuple 7 [10, 20, 30, 40, 50]).2.GetValue 0 3
      = [10, 20, 30, 40, 50].getD 3 0 :=
  insert_roundtrip_spec (freshTileGroup [3, 2] 2) 7 [10, 20, 30, 40, 50] 0
    ((freshTileGroup [3, 2] 2).InsertTuple 7 [10, 20, 30, 40, 50]).2 3
    (by decide) (by decide) (by decide) rfl

/-- C9: for a `ModifyTableState` with operation `CMD_INSERT`, the
transformer emits an `InsertNode` whose tuple vector is empty, whatever
the subplan would have produced. -/
theorem transformInsert_spec (mgr : CatalogManager) (db : Nat) (ms : ModifyTableState)
    (hop : ms.operation = CmdType.insert) :
    TransformModifyTable mgr db ms
      = some (AbstractPlanNode.insertNode (mgr.getLocation db ms.result_table_oid) [])
    ∧ ∀ out : List (List Value),
        TransformModifyTable mgr db { ms with subplan_output := out }
          = TransformModifyTable mgr db ms := by
  constructor
  · simp [TransformModifyTable, hop, TransformInsert]
  · intro out
    simp [TransformModifyTable, hop, TransformInsert]

/-- Witness: a concrete insert plan state is transformed into an
`InsertNode` with zero tuples, independently of the subplan's output. -/
theorem transformInsert_spec_witness :
    TransformModifyTable mgrExample 2 msInsExample
      = some (AbstractPlanNode.insertNode (mgrExample.getLocation 2 msInsExample.result_table_oid) [])
    ∧ ∀ out : List (List Value),
        TransformModifyTable mgrExample 2 { msInsExample with subplan_output := out }
          = TransformModifyTable mgrExample 2 msInsExample :=
  transformInsert_spec mgrExample 2 msInsExample rfl

/-- C10: `TransformSeqScan` yields a `SeqScanNode` with a null predicate
and the full column list `[0, …, column_count-1]` of the target table's
schema, independent of the state's qualifier and projection. -/
theorem transformSeqScan_spec (mgr : CatalogManager) (db : Nat) (ss : SeqScanState)
    (hcols : 0 < mgr.schemaColumnCount (mgr.getLocation db ss.table_oid)) :
    TransformSeqScan mgr db ss
      = AbstractPlanNode.seqScanNode (mgr.getLocation db ss.table_oid) none
          (List.range (mgr.schemaColumnCount (mgr.getLocation db ss.table_oid)))
    ∧ ∀ (q p : Option Nat),
        TransformSeqScan mgr db { ss with qual := q, ps_ProjInfo := p }
          = TransformSeqScan mgr db ss :=
  ⟨rfl, fun q p => rfl⟩

/-- Witness: a concrete scan over a 3-column table is transformed to a
predicate-free scan of columns `[0, 1, 2]`, whatever the qualifier and
projection were. -/
theorem transformSeqScan_spec_witness :
    TransformSeqScan mgrExample 0 ssExample
      = AbstractPlanNode.seqScanNode
          (mgrExample.getLocation 0 ssExample.table_oid) none
          (List.range (mgrExample.schemaColumnCount (mgrExample.getLocation 0 ssExample.table_oid)))
    ∧ ∀ (q p : Option Nat),
        TransformSeqScan mgrExample 0 { ssExample with qual := q, ps_ProjInfo := p }
          = TransformSeqScan mgrExample 0 ssExample :=
  transformSeqScan_spec mgrExample 0 ssExample (by decide)

end Peloton
